import Mathlib

/-!
Verification of the CSV data-quality engine of this repository.

The embedding models:
* `analyzeData` — the 7-dimension quality analyzer and scorer
  (component `QualityAnalysis`, function `analyzeData`),
* `applyAllSelectedSteps` — the cleaning engine
  (component `DataCleaning`, function `applyAllSelectedSteps`).

JavaScript numbers are modelled as exact rationals (`ℚ`); `NaN` is modelled
as `none` of an `Option` type (it only arises here from `0/0` divisions, so
infinities never occur).  Cells are `string | number`; an out-of-range array
access (`row[colIndex]` beyond the row's length, i.e. JavaScript `undefined`)
is modelled as `none : Option Cell`.
-/

/-! ### JavaScript primitives -/

/-- Models `Math.round q` for a finite number: rounds half-way cases toward `+∞`. -/
def jsRound (q : ℚ) : ℤ := ⌊q + 1/2⌋

/-- Does the character list `hay` start with `needle`? (helper for
`String.prototype.includes`). -/
def startsWithL : List Char → List Char → Bool
  | [], _ => true
  | _ :: _, [] => false
  | a :: as, b :: bs => a = b && startsWithL as bs

/-- Does `hay` contain `needle` as a contiguous run? -/
def containsL : List Char → List Char → Bool
  | [], needle => startsWithL needle []
  | h :: t, needle => startsWithL needle (h :: t) || containsL t needle

/-- Models `s.includes(pat)` on strings. -/
def jsIncludes (s pat : String) : Bool := containsL s.toList pat.toList

/-- Models `s.toLowerCase()` (faithful on the ASCII range used by this program). -/
def jsToLower (s : String) : String := String.mk (s.toList.map Char.toLower)

/-- Models `s.toUpperCase()` (faithful on the ASCII range used by this program). -/
def jsToUpper (s : String) : String := String.mk (s.toList.map Char.toUpper)

/-- Models `s.trim()`: strip leading and trailing whitespace. -/
def jsTrim (s : String) : String :=
  String.mk (((s.toList.dropWhile Char.isWhitespace).reverse.dropWhile
    Char.isWhitespace).reverse)

/-- Models `s.charAt(0).toUpperCase() + s.slice(1).toLowerCase()`. -/
def jsCapitalize (s : String) : String :=
  match s.toList with
  | [] => ""
  | c :: rest => String.mk (c.toUpper :: (rest.map Char.toLower))

/-- Numeric value of a digit list (most significant first); `none` unless the
list is non-empty and all digits. -/
def digitsVal : List Char → Option ℕ
  | [] => none
  | cs =>
    if cs.all Char.isDigit then
      some (cs.foldl (fun acc c => 10 * acc + (c.toNat - 48)) 0)
    else none

/-- Parse `intPart [. fracPart]` after the optional sign of a JavaScript
numeric string. -/
def parseDec (cs : List Char) : Option ℚ :=
  let ds := cs.takeWhile Char.isDigit
  let rest := cs.dropWhile Char.isDigit
  match rest with
  | [] => (digitsVal ds).map (fun n => (n : ℚ))
  | '.' :: fs =>
    if fs.all Char.isDigit && (ds ≠ [] || fs ≠ []) then
      some ((ds.foldl (fun acc c => 10 * acc + (c.toNat - 48)) 0 : ℕ)
        + (fs.foldl (fun acc c => 10 * acc + (c.toNat - 48)) 0 : ℕ) / (10 ^ fs.length : ℚ))
    else none
  | _ => none

/-- Model of `Number(s)` for a string `s` on the decimal fragment this
program's data uses: trimmed, optional sign, decimal digits with an optional
fractional part; `""` (after trimming) parses to `0`.  `none` models `NaN`.
(Hex/exponent/`Infinity` literals are outside this model; no claim depends
on them.) -/
def jsNumberParse (s : String) : Option ℚ :=
  match (jsTrim s).toList with
  | [] => some 0
  | '+' :: rest => parseDec rest
  | '-' :: rest => (parseDec rest).map (fun q => -q)
  | cs => parseDec cs

/-- A calendar date as parsed by the engine's `Date` uses. -/
structure JsDate where
  year : ℤ
  month : ℕ
  day : ℕ
deriving DecidableEq, Repr

/-- Chronological encoding of a date (lexicographic on year/month/day since
month and day have two digits). -/
def JsDate.code (d : JsDate) : ℤ := d.year * 10000 + d.month * 100 + d.day

/-- Model of `Date.parse` / `new Date(s)` on the `YYYY-MM-DD` fragment; other
strings are treated as unparseable (`none` models an invalid date / `NaN`
timestamp).  No claim depends on the other date formats the real parser
accepts. -/
def jsDateParse (s : String) : Option JsDate :=
  match s.toList with
  | [y1, y2, y3, y4, '-', m1, m2, '-', d1, d2] =>
    if [y1, y2, y3, y4, m1, m2, d1, d2].all Char.isDigit then
      some ⟨(y1.toNat - 48) * 1000 + (y2.toNat - 48) * 100 + (y3.toNat - 48) * 10
              + (y4.toNat - 48),
            (m1.toNat - 48) * 10 + (m2.toNat - 48),
            (d1.toNat - 48) * 10 + (d2.toNat - 48)⟩
    else none
  | _ => none

/-- The analysis-time clock (`new Date()`), modelled as a constant date. -/
def jsNow : JsDate := ⟨2026, 10, 11⟩

/-- Models `String(val).replace(/[\s\-\(\)]/g, '')`: strip spaces, hyphens and
parentheses. -/
def jsStripPhone (s : String) : String :=
  String.mk (s.toList.filter (fun c => !(c = ' ' || c = '-' || c = '(' || c = ')')))

/-- Models `/^[\+]?[1-9][\d]{0,15}$/.test s`: optional `+`, then a nonzero digit,
then up to 15 digits. -/
def phonePatternTest (s : String) : Bool :=
  let cs := match s.toList with
    | '+' :: rest => some rest
    | rest => some rest
  match cs with
  | some (c :: rest) =>
    ('1' ≤ c && c ≤ '9') && rest.all Char.isDigit && rest.length ≤ 15
  | _ => false

/-- Models `/^[\+]?[1-9][\d]{9,14}$/.test s` (the PII phone pattern): optional `+`,
a nonzero digit, then 9 to 14 digits. -/
def piiPhoneTest (s : String) : Bool :=
  let cs := match s.toList with
    | '+' :: rest => rest
    | rest => rest
  match cs with
  | c :: rest =>
    ('1' ≤ c && c ≤ '9') && rest.all Char.isDigit
      && 9 ≤ rest.length && rest.length ≤ 14
  | _ => false

/-- Models `/^[^\s@]+@[^\s@]+\.[^\s@]+$/.test s`: the whole string is
`A@B.C` where `A`, `B`, `C` are non-empty and contain no whitespace and no
`@`.  Equivalently: no whitespace anywhere, exactly one `@`, which is neither
first nor in the last two positions, and the part after the `@` contains an
inner dot (a `.` that is neither right after the `@` nor last). -/
def emailPatternTest (s : String) : Bool :=
  let cs := s.toList
  (cs.all (fun c => !c.isWhitespace))
    && (cs.count '@' = 1)
    && (match cs.splitOn '@' with
        | [a, d] => a ≠ [] && d.length ≥ 3 && ((d.drop 1).dropLast.contains '.')
        | _ => false)

/-- Models `/^\d{4}-\d{2}-\d{2}$|^\d{2}\/\d{2}\/\d{4}$|^\d{2}-\d{2}-\d{4}$/.test s`. -/
def datePatternTest (s : String) : Bool :=
  match s.toList with
  | [a, b, c, d, '-', e, f, '-', g, h] => [a, b, c, d, e, f, g, h].all Char.isDigit
  | [a, b, '/', c, d, '/', e, f, g, h] => [a, b, c, d, e, f, g, h].all Char.isDigit
  | [a, b, '-', c, d, '-', e, f, g, h] => [a, b, c, d, e, f, g, h].all Char.isDigit
  | _ => false

/-- Models `/^\d{3}-\d{2}-\d{4}$/.test s || /^\d{9}$/.test s` (the SSN patterns). -/
def ssnPatternTest (s : String) : Bool :=
  match s.toList with
  | [a, b, c, '-', d, e, '-', f, g, h, i] => [a, b, c, d, e, f, g, h, i].all Char.isDigit
  | cs => cs.length = 9 && cs.all Char.isDigit

/-- Models `/^\d{4}[\s\-]?\d{4}[\s\-]?\d{4}[\s\-]?\d{4}$/.test s`: four groups of
four digits with an optional space or hyphen between consecutive groups. -/
def ccPatternTest (s : String) : Bool :=
  let sep : List Char → Option (List Char) := fun cs =>
    match cs with
    | ' ' :: rest => some rest
    | '-' :: rest => some rest
    | rest => some rest
  let grab4 : List Char → Option (List Char) := fun cs =>
    match cs with
    | a :: b :: c :: d :: rest =>
      if [a, b, c, d].all Char.isDigit then some rest else none
    | _ => none
  match grab4 s.toList with
  | none => false
  | some r1 =>
    match (sep r1).bind grab4 with
    | none => false
    | some r2 =>
      match (sep r2).bind grab4 with
      | none => false
      | some r3 =>
        match (sep r3).bind grab4 with
        | none => false
        | some r4 => r4 = []

/-- Is the string (of length > 3) a single repeated character
(`/^(.)\1+$/` together with the length guard)? -/
def allSameChar (s : String) : Bool :=
  match s.toList with
  | [] => true
  | c :: rest => rest.all (· = c)

theorem dropWhile_len_le {α : Type} (p : α → Bool) (l : List α) :
    (l.dropWhile p).length ≤ l.length := by
  induction l with
  | nil => simp [List.dropWhile]
  | cons a t ih =>
    by_cases h : p a
    · simpa [List.dropWhile, h] using Nat.le_succ_of_le ih
    · simp [List.dropWhile, h]

/-- Collapse every maximal run of whitespace into a single space
(`.replace(/\s+/g, ' ')`). -/
def jsCollapseWs : List Char → List Char
  | [] => []
  | c :: rest =>
    if c.isWhitespace then
      ' ' :: jsCollapseWs (rest.dropWhile Char.isWhitespace)
    else c :: jsCollapseWs rest
termination_by l => l.length
decreasing_by
  · exact Nat.lt_succ_of_le (dropWhile_len_le _ _)
  · simp

/-! ### Data model -/

/-- A cell of the tabular dataset: `string | number` (JavaScript numbers as
exact rationals). -/
inductive Cell where
  | str (s : String)
  | num (q : ℚ)
deriving DecidableEq, Repr

/-- Decimal digits of `n` (most significant first), with enough structural
fuel for the kernel to evaluate. -/
def natDigits : ℕ → ℕ → List Char
  | 0, _ => []
  | fuel + 1, n =>
    if n < 10 then [Char.ofNat (n + 48)]
    else natDigits fuel (n / 10) ++ [Char.ofNat (n % 10 + 48)]

/-- Decimal representation of a natural number. -/
def jsNatRepr (n : ℕ) : String := String.mk (natDigits (n + 1) n)

/-- Decimal representation of an integer. -/
def jsIntRepr (i : ℤ) : String :=
  if i < 0 then "-" ++ jsNatRepr i.natAbs else jsNatRepr i.natAbs

/-- Models `String(val)`: an integral number prints as its decimal representation;
the shortest-round-trip decimal printing of non-integral JavaScript numbers
is modelled as `num/den` (no claim evaluates it). -/
def Cell.jsString : Cell → String
  | .str s => s
  | .num q => if q.den = 1 then jsIntRepr q.num
      else jsIntRepr q.num ++ "/" ++ jsNatRepr q.den

/-- Models `Number(val)`: a number is itself, a string is parsed; `none` is `NaN`. -/
def Cell.jsNumber : Cell → Option ℚ
  | .num q => some q
  | .str s => jsNumberParse s

/-- The `CSVData` interface: `headers`, `rows`, `filename`. -/
structure CSVData where
  headers : List String
  rows : List (List Cell)
  filename : String
deriving DecidableEq, Repr

/-- Models `data.rows[r][c]`: `none` models JavaScript `undefined` (row missing or
shorter than the header list). -/
def cellAt (d : CSVData) (r c : ℕ) : Option Cell :=
  (d.rows.get? r).bind (fun row => row.get? c)

/-- Models `data.rows.map(row => row[colIndex])` — the column's cells, one per row. -/
def colCells (d : CSVData) (c : ℕ) : List (Option Cell) :=
  d.rows.map (fun row => row.get? c)

/-- The empty-marker test of the Missing Values analyzer:
`val === '' || val === null || val === undefined || val === 'null' ||
 val === 'NULL' || val === 'N/A' || val === 'n/a'`. -/
def isMissingMarker : Option Cell → Bool
  | none => true
  | some (.str s) => s = "" || s = "null" || s = "NULL" || s = "N/A" || s = "n/a"
  | some (.num _) => false

/-- The guard `val !== '' && val !== null && val !== undefined` used by the
format, range, unusual-pattern and PII analyzers. -/
def nonEmptyGuard : Option Cell → Bool
  | none => false
  | some (.str s) => s ≠ ""
  | some (.num _) => true

/-! ### The Quality Analysis engine (`analyzeData`) -/

/-- One detected problem (the `DetailedIssue` interface; the `description` and
`recommendation` strings are fixed per-dimension templates and are not
modelled).  For row-level issues the `value` is the whole row in the source
and is modelled as `none` here. -/
structure Issue where
  type : String
  column : String
  rowIndex : ℕ
  value : Option Cell
  severity : String
deriving DecidableEq, Repr

/-- Models `data.headers[c]` (always in range where used). -/
def headerAt (d : CSVData) (c : ℕ) : String := (d.headers.get? c).getD ""

/-! #### 1. Missing values -/

/-- Row indices of the missing cells of column `c` (the rows at which the
missing-values `forEach` fires). -/
def missingRowsInCol (d : CSVData) (c : ℕ) : List ℕ :=
  (List.range d.rows.length).filter (fun r => isMissingMarker (cellAt d r c))

/-- Models `missingValues[header]` — the per-column missing count. -/
def missingCount (d : CSVData) (c : ℕ) : ℕ := (missingRowsInCol d c).length

/-- The issues pushed by the missing-values analyzer. -/
def missingIssues (d : CSVData) : List Issue :=
  (List.range d.headers.length).bind (fun c =>
    (missingRowsInCol d c).map (fun r =>
      ⟨"missing", headerAt d c, r, cellAt d r c, "medium"⟩))

/-- Models `Object.values(missingValues).reduce((sum, c) => sum + c, 0)`. -/
def totalMissing (d : CSVData) : ℕ :=
  ((List.range d.headers.length).map (fun c => missingCount d c)).sum

/-! #### 2. Duplicates -/

/-- Association-list lookup modelling `seenRows.get(key)`.  The map is keyed
by `JSON.stringify(row)`, which is injective on rows of strings/numbers, so
the key is modelled as the row itself. -/
def lookupRow (r : List Cell) : List (List Cell × ℕ) → Option ℕ
  | [] => none
  | (r', o) :: rest => if r' = r then some o else lookupRow r rest

/-- The duplicate scan of `analyzeData`: walk the rows keeping the map of
first occurrences (`seenRows`); emit `(index, original index)` for every row
whose key was already seen. -/
def findDups : List (List Cell) → ℕ → List (List Cell × ℕ) → List (ℕ × ℕ)
  | [], _, _ => []
  | r :: rs, i, seen =>
    match lookupRow r seen with
    | some o => (i, o) :: findDups rs (i + 1) seen
    | none => findDups rs (i + 1) (seen ++ [(r, i)])

/-- Every flagged duplicate row paired with the index of its original. -/
def dupPairs (d : CSVData) : List (ℕ × ℕ) := findDups d.rows 0 []

/-- Models `duplicateRowIndices`. -/
def duplicateRowIndices (d : CSVData) : List ℕ := (dupPairs d).map Prod.fst

/-- The issues pushed by the duplicates analyzer. -/
def duplicateIssues (d : CSVData) : List Issue :=
  (dupPairs d).map (fun p => ⟨"duplicate", "All columns", p.1, none, "high"⟩)

/-! #### 3. Invalid format (and the column-type inference) -/

/-- The numeric-share filter of the type inference:
`typeof val === 'number' || (!isNaN(Number(val)) && val !== '')`. -/
def isNumericLike : Option Cell → Bool
  | some (.num _) => true
  | some (.str s) => (jsNumberParse s).isSome && s ≠ ""
  | none => false

/-- Models `numericValues.length` for a column. -/
def numericShareCount (col : List (Option Cell)) : ℕ :=
  (col.filter isNumericLike).length

/-- The column-type inference (the `columnType` chain of the format
analyzer, stored in `dataTypes[header]`). -/
def inferType (header : String) (col : List (Option Cell)) : String :=
  if 10 * numericShareCount col > 7 * col.length then "numeric"
  else if jsIncludes (jsToLower header) "email" then "email"
  else if jsIncludes (jsToLower header) "phone" || jsIncludes (jsToLower header) "mobile" then
    "phone"
  else if jsIncludes (jsToLower header) "date" || jsIncludes (jsToLower header) "dob" then
    "date"
  else "text"

/-- Models `dataTypes[headers[c]]`. -/
def dataTypeOf (d : CSVData) (c : ℕ) : String := inferType (headerAt d c) (colCells d c)

/-- The per-cell invalid-format test (the `switch (columnType)` body), for a
cell that passed `nonEmptyGuard`. -/
def formatInvalid (columnType : String) (v : Cell) : Bool :=
  if columnType = "email" then !emailPatternTest v.jsString
  else if columnType = "phone" then
    let cleanPhone := jsStripPhone v.jsString
    !phonePatternTest cleanPhone || cleanPhone.length < 10 || cleanPhone.length > 15
  else if columnType = "date" then
    !datePatternTest v.jsString && (jsDateParse v.jsString).isNone
  else if columnType = "numeric" then v.jsNumber.isNone
  else false

/-- Format flag for one (possibly absent) cell. -/
def formatFlagged (columnType : String) : Option Cell → Bool
  | some v => nonEmptyGuard (some v) && formatInvalid columnType v
  | none => false

/-- Row indices flagged by the format analyzer in column `c`. -/
def formatRowsInCol (d : CSVData) (c : ℕ) : List ℕ :=
  (List.range d.rows.length).filter (fun r => formatFlagged (dataTypeOf d c) (cellAt d r c))

/-- Models `formatIssues[header]`. -/
def formatCount (d : CSVData) (c : ℕ) : ℕ := (formatRowsInCol d c).length

/-- The issues pushed by the format analyzer. -/
def formatIssuesList (d : CSVData) : List Issue :=
  (List.range d.headers.length).bind (fun c =>
    (formatRowsInCol d c).map (fun r =>
      ⟨"invalid_format", headerAt d c, r, cellAt d r c, "high"⟩))

/-- Models `Object.values(formatIssues).reduce(...)`. -/
def totalFormatIssues (d : CSVData) : ℕ :=
  ((List.range d.headers.length).map (fun c => formatCount d c)).sum

/-! #### 4. Value range -/

/-- The per-cell value-range test for a cell that passed `nonEmptyGuard`
(`isOutOfRange` is set by whichever of the four header-keyed rules fires,
one issue per cell). -/
def rangeViolation (header : String) (v : Cell) : Bool :=
  let hl := jsToLower header
  let ageBad := jsIncludes hl "age" &&
    (match v.jsNumber with
     | some a => a < 0 || a > 150
     | none => false)
  let salaryBad := (jsIncludes hl "salary" || jsIncludes hl "income") &&
    (match v.jsNumber with
     | some sal => sal < 0
     | none => false)
  let dobBad := (jsIncludes hl "dob" || jsIncludes hl "birth") &&
    (match jsDateParse v.jsString with
     | some dd => dd.code > jsNow.code || dd.year < 1900
     | none => false)
  let phoneBad := jsIncludes hl "phone" &&
    (let cleanPhone := jsStripPhone v.jsString
     cleanPhone.length < 10 || cleanPhone.length > 15)
  ageBad || salaryBad || dobBad || phoneBad

/-- Range flag for one (possibly absent) cell. -/
def rangeFlagged (header : String) : Option Cell → Bool
  | some v => nonEmptyGuard (some v) && rangeViolation header v
  | none => false

/-- Row indices flagged by the range analyzer in column `c`. -/
def rangeRowsInCol (d : CSVData) (c : ℕ) : List ℕ :=
  (List.range d.rows.length).filter (fun r => rangeFlagged (headerAt d c) (cellAt d r c))

/-- Models `rangeIssues[header]`. -/
def rangeCount (d : CSVData) (c : ℕ) : ℕ := (rangeRowsInCol d c).length

/-- The issues pushed by the range analyzer. -/
def rangeIssuesList (d : CSVData) : List Issue :=
  (List.range d.headers.length).bind (fun c =>
    (rangeRowsInCol d c).map (fun r =>
      ⟨"value_range", headerAt d c, r, cellAt d r c, "high"⟩))

/-- Models `Object.values(rangeIssues).reduce(...)`. -/
def totalRangeIssues (d : CSVData) : ℕ :=
  ((List.range d.headers.length).map (fun c => rangeCount d c)).sum

/-! #### 5. Inconsistent values -/

/-- The mixed-capitalization test:
`val !== val.toLowerCase() && val !== val.toUpperCase() &&
 val !== val.charAt(0).toUpperCase() + val.slice(1).toLowerCase()`. -/
def mixedCase (s : String) : Bool :=
  s ≠ jsToLower s && s ≠ jsToUpper s && s ≠ jsCapitalize s

/-- The extra-whitespace test: `val !== val.trim() || val.includes('  ')`. -/
def extraWhitespace (s : String) : Bool :=
  s ≠ jsTrim s || jsIncludes s "  "

/-- Text-formatting inconsistency flag for one cell of a text-typed column:
`typeof val === 'string' && val !== ''`, then mixed case or extra
whitespace. -/
def textInconsFlag : Option Cell → Bool
  | some (.str s) => s ≠ "" && (mixedCase s || extraWhitespace s)
  | _ => false

/-- Rows flagged by the text-formatting pass of the inconsistency analyzer
in column `c` (only run when the column's inferred type is `text`). -/
def textInconsRowsInCol (d : CSVData) (c : ℕ) : List ℕ :=
  if dataTypeOf d c = "text" then
    (List.range d.rows.length).filter (fun r => textInconsFlag (cellAt d r c))
  else []

/-- JavaScript truthiness of a cell (the `if (shipDate && orderDate)` guard). -/
def jsTruthy : Option Cell → Bool
  | none => false
  | some (.str s) => s ≠ ""
  | some (.num q) => q ≠ 0

/-- Models `data.headers.findIndex(h => h.toLowerCase().includes('order') &&
h.toLowerCase().includes('date'))`; `none` models `-1`. -/
def orderDateCol (d : CSVData) : Option ℕ :=
  (List.range d.headers.length).find? (fun c =>
    jsIncludes (jsToLower (headerAt d c)) "order"
      && jsIncludes (jsToLower (headerAt d c)) "date")

/-- Rows flagged by the ship-date/order-date cross-column pass of the
inconsistency analyzer in column `c`. -/
def shipInconsRowsInCol (d : CSVData) (c : ℕ) : List ℕ :=
  if jsIncludes (jsToLower (headerAt d c)) "ship"
      && d.headers.any (fun h => jsIncludes (jsToLower h) "order") then
    match orderDateCol d with
    | some oc =>
      (List.range d.rows.length).filter (fun r =>
        let shipDate := cellAt d r c
        let orderDate := cellAt d r oc
        jsTruthy shipDate && jsTruthy orderDate &&
          (match jsDateParse ((shipDate.getD (.str "")).jsString),
                 jsDateParse ((orderDate.getD (.str "")).jsString) with
           | some sd, some od => sd.code < od.code
           | _, _ => false))
    | none => []
  else []

/-- Models `inconsistencyIssues[header]` — both passes share one counter. -/
def inconsCount (d : CSVData) (c : ℕ) : ℕ :=
  (textInconsRowsInCol d c).length + (shipInconsRowsInCol d c).length

/-- The issues pushed by the inconsistency analyzer (text pass is severity
`low`, cross-column pass severity `high`). -/
def inconsIssuesList (d : CSVData) : List Issue :=
  (List.range d.headers.length).bind (fun c =>
    (textInconsRowsInCol d c).map (fun r =>
      ⟨"inconsistent", headerAt d c, r, cellAt d r c, "low"⟩)
    ++ (shipInconsRowsInCol d c).map (fun r =>
      ⟨"inconsistent", headerAt d c, r, cellAt d r c, "high"⟩))

/-- Models `Object.values(inconsistencyIssues).reduce(...)`. -/
def totalInconsistencies (d : CSVData) : ℕ :=
  ((List.range d.headers.length).map (fun c => inconsCount d c)).sum

/-! #### 6. Unusual patterns -/

/-- The per-cell unusual-pattern test for a cell that passed
`nonEmptyGuard`. -/
def unusualViolation (header : String) (v : Cell) : Bool :=
  let strVal := v.jsString
  let repeated := strVal.length > 3 && allSameChar strVal
  let sequential := strVal.length > 4 &&
    (startsWithL "0123456789".toList (jsToLower strVal).toList
      || startsWithL "1234567890".toList (jsToLower strVal).toList
      || startsWithL "abcdefghij".toList (jsToLower strVal).toList)
  let dummy := ["test", "dummy", "sample", "example", "placeholder",
    "temp", "xxx", "yyy", "zzz"].any (fun pat => jsIncludes (jsToLower strVal) pat)
  let suspEmail := jsIncludes (jsToLower header) "email" &&
    (jsIncludes strVal "test@" || jsIncludes strVal "dummy@"
      || jsIncludes strVal "example@" || jsIncludes strVal "@test."
      || jsIncludes strVal "@dummy.")
  repeated || sequential || dummy || suspEmail

/-- Unusual-pattern flag for one (possibly absent) cell. -/
def unusualFlagged (header : String) : Option Cell → Bool
  | some v => nonEmptyGuard (some v) && unusualViolation header v
  | none => false

/-- Row indices flagged by the unusual-pattern analyzer in column `c`. -/
def unusualRowsInCol (d : CSVData) (c : ℕ) : List ℕ :=
  (List.range d.rows.length).filter (fun r => unusualFlagged (headerAt d c) (cellAt d r c))

/-- Models `unusualPatterns[header]`. -/
def unusualCount (d : CSVData) (c : ℕ) : ℕ := (unusualRowsInCol d c).length

/-- The issues pushed by the unusual-pattern analyzer. -/
def unusualIssuesList (d : CSVData) : List Issue :=
  (List.range d.headers.length).bind (fun c =>
    (unusualRowsInCol d c).map (fun r =>
      ⟨"unusual_pattern", headerAt d c, r, cellAt d r c, "medium"⟩))

/-- Models `Object.values(unusualPatterns).reduce(...)`. -/
def totalUnusualPatterns (d : CSVData) : ℕ :=
  ((List.range d.headers.length).map (fun c => unusualCount d c)).sum

/-! #### 7. Sensitive data (PII) -/

/-- The PII pattern tags matching one cell that passed `nonEmptyGuard`;
each of the four independent tests pushes its own issue. -/
def piiMatches (v : Cell) : List String :=
  let strVal := v.jsString
  (if emailPatternTest strVal then ["Email"] else [])
    ++ (if piiPhoneTest (jsStripPhone strVal) then ["Phone"] else [])
    ++ (if ssnPatternTest strVal then ["SSN"] else [])
    ++ (if ccPatternTest strVal then ["Credit Card"] else [])

/-- PII matches for one (possibly absent) cell. -/
def piiMatchesOpt : Option Cell → List String
  | some v => if nonEmptyGuard (some v) then piiMatches v else []
  | none => []

/-- The issues pushed by the PII analyzer. -/
def piiIssuesList (d : CSVData) : List Issue :=
  (List.range d.headers.length).bind (fun c =>
    (List.range d.rows.length).bind (fun r =>
      (piiMatchesOpt (cellAt d r c)).map (fun _ =>
        ⟨"sensitive_data", headerAt d c, r, cellAt d r c, "critical"⟩)))

/-- Models `issues.filter(i => i.type === 'sensitive_data').length`. -/
def totalSensitiveData (d : CSVData) : ℕ := (piiIssuesList d).length

/-! #### Scorer -/

/-- Models `totalCells = data.rows.length * data.headers.length`. -/
def totalCells (d : CSVData) : ℕ := d.rows.length * d.headers.length

/-- Models `missingValuesScore = Math.round(((totalCells - totalMissing) /
totalCells) * 100)`.  The division is unguarded in the source; with zero
cells it is `0/0 = NaN`, modelled as `none`. -/
def missingValuesScore (d : CSVData) : Option ℤ :=
  if totalCells d = 0 then none
  else some (jsRound ((((totalCells d : ℚ) - (totalMissing d : ℚ)) / (totalCells d : ℚ)) * 100))

/-- Models `duplicatesScore` (unguarded division by `data.rows.length`). -/
def duplicatesScore (d : CSVData) : Option ℤ :=
  if d.rows.length = 0 then none
  else some (jsRound ((((d.rows.length : ℚ) - ((duplicateRowIndices d).length : ℚ))
    / (d.rows.length : ℚ)) * 100))

/-- Models `Math.max(0, Math.round(100 - (issues / totalRows) * 100))`, shared by
four of the dimension scores; `none` models the `NaN` of the unguarded
`0/0` division. -/
def ratioScore (issues rows : ℕ) : Option ℤ :=
  if rows = 0 then none
  else some (max 0 (jsRound (100 - ((issues : ℚ) / (rows : ℚ)) * 100)))

/-- Models `invalidFormatScore`. -/
def invalidFormatScore (d : CSVData) : Option ℤ :=
  ratioScore (totalFormatIssues d) d.rows.length

/-- Models `valueRangeScore`. -/
def valueRangeScore (d : CSVData) : Option ℤ :=
  ratioScore (totalRangeIssues d) d.rows.length

/-- Models `inconsistentValuesScore`. -/
def inconsistentValuesScore (d : CSVData) : Option ℤ :=
  ratioScore (totalInconsistencies d) d.rows.length

/-- Models `unusualPatternsScore`. -/
def unusualPatternsScore (d : CSVData) : Option ℤ :=
  ratioScore (totalUnusualPatterns d) d.rows.length

/-- Models `sensitiveDataScore = totalSensitiveData === 0 ? 100 : Math.max(0,
Math.round(100 - (totalSensitiveData / totalRows) * 100))`. -/
def sensitiveDataScore (d : CSVData) : Option ℤ :=
  if totalSensitiveData d = 0 then some 100
  else ratioScore (totalSensitiveData d) d.rows.length

/-- The weighted overall-score formula applied to the seven (already
rounded) sub-scores; `NaN` (`none`) propagates. -/
def overallOf (m dup f rg inc u s : Option ℤ) : Option ℤ := do
  let m ← m
  let dup ← dup
  let f ← f
  let rg ← rg
  let inc ← inc
  let u ← u
  let s ← s
  pure (jsRound ((m : ℚ) * (20/100) + (dup : ℚ) * (15/100) + (f : ℚ) * (15/100)
    + (rg : ℚ) * (15/100) + (inc : ℚ) * (10/100) + (u : ℚ) * (10/100)
    + (s : ℚ) * (15/100)))

/-- Models `overallScore`. -/
def overallScore (d : CSVData) : Option ℤ :=
  overallOf (missingValuesScore d) (duplicatesScore d) (invalidFormatScore d)
    (valueRangeScore d) (inconsistentValuesScore d) (unusualPatternsScore d)
    (sensitiveDataScore d)

/-- The flat issue list in dimension-processing order. -/
def allIssues (d : CSVData) : List Issue :=
  missingIssues d ++ duplicateIssues d ++ formatIssuesList d ++ rangeIssuesList d
    ++ inconsIssuesList d ++ unusualIssuesList d ++ piiIssuesList d

/-- The `QualityReport` produced by one run (bundled with the component's
`issues` array; the per-column breakdown maps are the `…Count` functions
above and the recommendation strings are display glue, not modelled). -/
structure QualityReport where
  totalRows : ℕ
  totalColumns : ℕ
  overallScore : Option ℤ
  missingValuesScore : Option ℤ
  duplicatesScore : Option ℤ
  invalidFormatScore : Option ℤ
  valueRangeScore : Option ℤ
  inconsistentValuesScore : Option ℤ
  unusualPatternsScore : Option ℤ
  sensitiveDataScore : Option ℤ
  duplicateRows : ℕ
  issues : List Issue
deriving DecidableEq, Repr

/-- The analysis pipeline `analyzeData`. -/
def analyzeData (d : CSVData) : QualityReport where
  totalRows := d.rows.length
  totalColumns := d.headers.length
  overallScore := overallScore d
  missingValuesScore := missingValuesScore d
  duplicatesScore := duplicatesScore d
  invalidFormatScore := invalidFormatScore d
  valueRangeScore := valueRangeScore d
  inconsistentValuesScore := inconsistentValuesScore d
  unusualPatternsScore := unusualPatternsScore d
  sensitiveDataScore := sensitiveDataScore d
  duplicateRows := (duplicateRowIndices d).length
  issues := allIssues d

/-! ### The Cleaning engine (`applyAllSelectedSteps`) -/

/-- A cleaning operation: the `operation` of a `CleaningStep`, together with
the step's `selectedRows` set, which the fill branch reads.  A fill step's
`value` is always set by step construction, so the `operation.value !==
undefined` guard of the source is always true here. -/
inductive CleanOp where
  | removeDuplicates
  | fillMissing (column : String) (value : Cell) (selectedRows : List ℕ)
  | removeOutliers (column : String)
  | standardize (column : String)
deriving DecidableEq, Repr

/-- A cleaning step: the user `applied` opt-in flag plus its operation (the
display fields of `CleaningStep` are not modelled). -/
structure CleaningStep where
  applied : Bool
  op : CleanOp
deriving DecidableEq, Repr

/-- Models `headers.indexOf(column)`; `none` models `-1`. -/
def idxOfHeader (headers : List String) (column : String) : Option ℕ :=
  headers.findIdx? (fun h => h = column)

/-- Models `!step.selectedRows || step.selectedRows.size === 0 ||
step.selectedRows.has(rowIndex)` (a fill step always carries a
`selectedRows` set, so the missing-set disjunct coincides with emptiness). -/
def shouldFill (sel : List ℕ) (r : ℕ) : Bool := sel.isEmpty || sel.contains r

/-- Models `newRow[colIndex] === '' || newRow[colIndex] === null ||
newRow[colIndex] === undefined`. -/
def fillableCell : Option Cell → Bool
  | none => true
  | some (.str s) => s = ""
  | some (.num _) => false

/-- The `remove_duplicates` branch of the apply loop: keep the first
occurrence of each row key (`uniqueRows` map). -/
def dedupRows : List (List Cell) → List (List Cell) → List (List Cell)
  | [], _ => []
  | r :: rs, seen =>
    if seen.contains r then dedupRows rs seen
    else r :: dedupRows rs (seen ++ [r])

/-- Models `remove_duplicates` applied to the running dataset. -/
def applyRemoveDuplicates (dd : CSVData) : CSVData :=
  { dd with rows := dedupRows dd.rows [] }

/-- The `fill_missing` branch.  A write at an index beyond the row's length
(a malformed short row) is modelled as a no-op; in JavaScript it would
extend the array — the claims about filling are stated under the §3
row-length invariant, where the index is always in range. -/
def applyFillMissing (dd : CSVData) (column : String) (value : Cell)
    (sel : List ℕ) : CSVData :=
  match idxOfHeader dd.headers column with
  | none => dd
  | some colIndex =>
    { dd with rows := dd.rows.enum.map (fun p =>
        if shouldFill sel p.1 && fillableCell (p.2.get? colIndex) then
          p.2.set colIndex value
        else p.2) }

/-- The `remove_outliers` branch: recompute the IQR bounds on the current
state of the column, then drop the rows whose numeric value falls outside. -/
def applyRemoveOutliers (dd : CSVData) (column : String) : CSVData :=
  match idxOfHeader dd.headers column with
  | none => dd
  | some colIndex =>
    let numericValues := (dd.rows.map (fun row => row.get? colIndex)).filterMap
      (fun v => match v with
        | some (.num q) => some q
        | _ => none)
    let sorted := numericValues.mergeSort (fun a b => a ≤ b)
    if sorted.length = 0 then dd
    else
      let q1 := (sorted.get? (sorted.length / 4)).getD 0
      let q3 := (sorted.get? (sorted.length * 3 / 4)).getD 0
      let iqr := q3 - q1
      let lowerBound := q1 - 3/2 * iqr
      let upperBound := q3 + 3/2 * iqr
      { dd with rows := dd.rows.filter (fun row =>
          match row.get? colIndex with
          | some (.num q) => lowerBound ≤ q && q ≤ upperBound
          | _ => true) }

/-- The `standardize` branch:
`value.trim().toLowerCase().replace(/\s+/g, ' ')` on string cells. -/
def applyStandardize (dd : CSVData) (column : String) : CSVData :=
  match idxOfHeader dd.headers column with
  | none => dd
  | some colIndex =>
    { dd with rows := dd.rows.map (fun row =>
        match row.get? colIndex with
        | some (.str s) =>
          row.set colIndex (.str (String.mk (jsCollapseWs (jsToLower (jsTrim s)).toList)))
        | _ => row) }

/-- One iteration of the apply loop (`switch (operation.type)`). -/
def applyStep (dd : CSVData) (step : CleaningStep) : CSVData :=
  match step.op with
  | .removeDuplicates => applyRemoveDuplicates dd
  | .fillMissing column value sel => applyFillMissing dd column value sel
  | .removeOutliers column => applyRemoveOutliers dd column
  | .standardize column => applyStandardize dd column

/-- Models `applyAllSelectedSteps`: run the steps flagged `applied`, in order, over
a running copy of the dataset, then set the `cleaned_` filename prefix. -/
def applyAllSelectedSteps (d : CSVData) (steps : List CleaningStep) : CSVData :=
  let cleaned := (steps.filter (fun s => s.applied)).foldl applyStep d
  { cleaned with filename := "cleaned_" ++ d.filename }

/-! ### Definitions following the spec's words (refutation targets only;
everything above is translated from the source) -/

/-- Modelled from the spec (§4.1 rule 1, for comparison with `inferType`):
"If ≥70% of non-empty values in the column parse as a number → numeric" —
denominator the non-empty values, non-strict threshold. -/
def specNumericRule (col : List (Option Cell)) : Bool :=
  let nonEmpty := col.filter nonEmptyGuard
  let parsing := nonEmpty.filter (fun v =>
    match v with
    | some c => c.jsNumber.isSome
    | none => false)
  10 * parsing.length ≥ 7 * nonEmpty.length

/-- Modelled from the spec (§4.2 Inconsistent Values, for comparison with
`textInconsFlag`): "flag a cell if trimming+lowercasing changes it, or if it
contains a double space". -/
def specInconsistentCell (s : String) : Bool :=
  s ≠ jsToLower (jsTrim s) || jsIncludes s "  "

/-! ### Concrete datasets used by the claims -/

/-- A dataset with rows `[A, B, A, C, A]` (§8's duplicate example). -/
def dABACA : CSVData :=
  ⟨["col"], [[.str "a"], [.str "b"], [.str "a"], [.str "c"], [.str "a"]], "f"⟩

/-- 200 rows, one column, exactly one missing cell. -/
def d200 : CSVData := ⟨["a"], (List.replicate 199 [Cell.str "x"]) ++ [[Cell.str ""]], "f"⟩

/-- Two rows, one column, one missing cell. -/
def dm1 : CSVData := ⟨["a"], [[.str "x"], [.str ""]], "f"⟩

/-- Two rows, one column, both cells missing. -/
def dm2 : CSVData := ⟨["a"], [[.str ""], [.str ""]], "f"⟩

/-- One all-upper-case text cell. -/
def dHello : CSVData := ⟨["name"], [[.str "HELLO"]], "f"⟩

/-- One mixed-case text cell. -/
def dHelloWorld : CSVData := ⟨["name"], [[.str "Hello World"]], "f"⟩

/-- A numeric column (9 of 10 values are numbers) holding one `"N/A"`. -/
def dNA : CSVData :=
  ⟨["c0"], [[.str "1"], [.str "2"], [.str "3"], [.str "4"], [.str "5"], [.str "6"],
    [.str "7"], [.str "8"], [.str "N/A"], [.str "9"]], "f"⟩

/-- A dataset with a header but no rows. -/
def dNoRows : CSVData := ⟨["a"], [], "f"⟩

/-- A malformed dataset: two headers, one row with a single cell. -/
def dShort : CSVData := ⟨["a","b"], [[.str "x"]], "f"⟩

/-- Two missing cells in one column (fill-step target). -/
def dFill : CSVData := ⟨["a"], [[.str ""], [.str ""]], "f"⟩

/-! ### Helper lemmas -/

theorem jsRound_eq_of (q : ℚ) (z : ℤ) (h1 : (z : ℚ) ≤ q + 1/2)
    (h2 : q + 1/2 < (z : ℚ) + 1) : jsRound q = z := by
  rw [jsRound, Int.floor_eq_iff]
  exact ⟨h1, h2⟩

/-! ### Claim theorems -/

/-- C1: For every dataset, the overall quality score equals
`round(0.20·missing + 0.15·duplicates + 0.15·format + 0.15·range +
0.10·inconsistent + 0.10·patterns + 0.15·PII)` applied to the report's own
seven sub-scores, and the weighted formula maps seven sub-scores of 100 to
an overall score of 100 and seven sub-scores of 0 to an overall score
of 0. -/
theorem c1_overall_weighted_sum :
    (∀ d : CSVData, (analyzeData d).overallScore =
      overallOf (analyzeData d).missingValuesScore (analyzeData d).duplicatesScore
        (analyzeData d).invalidFormatScore (analyzeData d).valueRangeScore
        (analyzeData d).inconsistentValuesScore (analyzeData d).unusualPatternsScore
        (analyzeData d).sensitiveDataScore)
    ∧ overallOf (some 100) (some 100) (some 100) (some 100) (some 100) (some 100)
        (some 100) = some 100
    ∧ overallOf (some 0) (some 0) (some 0) (some 0) (some 0) (some 0) (some 0)
        = some 0 := by
  refine ⟨fun _ => rfl, ?_, ?_⟩
  · have h : jsRound ((((100 : ℤ) : ℚ)) * (20/100) + (((100 : ℤ) : ℚ)) * (15/100)
        + (((100 : ℤ) : ℚ)) * (15/100) + (((100 : ℤ) : ℚ)) * (15/100)
        + (((100 : ℤ) : ℚ)) * (10/100) + (((100 : ℤ) : ℚ)) * (10/100)
        + (((100 : ℤ) : ℚ)) * (15/100)) = 100 :=
      jsRound_eq_of _ _ (by norm_num) (by norm_num)
    simpa [overallOf, Option.some_bind] using h
  · have h : jsRound ((((0 : ℤ) : ℚ)) * (20/100) + (((0 : ℤ) : ℚ)) * (15/100)
        + (((0 : ℤ) : ℚ)) * (15/100) + (((0 : ℤ) : ℚ)) * (15/100)
        + (((0 : ℤ) : ℚ)) * (10/100) + (((0 : ℤ) : ℚ)) * (10/100)
        + (((0 : ℤ) : ℚ)) * (15/100)) = 0 :=
      jsRound_eq_of _ _ (by norm_num) (by norm_num)
    simpa [overallOf, Option.some_bind] using h

/-- C2: the code bug exhibited.  On a dataset with a header but no rows the
scorer divides by zero: six dimension scores and the overall score are `NaN`
(`none`), not the claimed 100 — only `sensitiveDataScore` is guarded.  The
issue list is empty as claimed. -/
theorem c2_zero_rows_nan_scores :
    (analyzeData dNoRows).missingValuesScore = none
    ∧ (analyzeData dNoRows).duplicatesScore = none
    ∧ (analyzeData dNoRows).invalidFormatScore = none
    ∧ (analyzeData dNoRows).valueRangeScore = none
    ∧ (analyzeData dNoRows).inconsistentValuesScore = none
    ∧ (analyzeData dNoRows).unusualPatternsScore = none
    ∧ (analyzeData dNoRows).sensitiveDataScore = some 100
    ∧ (analyzeData dNoRows).overallScore = none
    ∧ (analyzeData dNoRows).issues = [] := by decide

/-- C5 counterexample: for the column `["5", ""]` under header `"h"`,
100% of the non-empty values parse as numbers, so the claim's rule
(≥70% of non-empty values) classifies it as numeric, but the code divides
by the total value count and requires strictly more than 70%, giving
`text`. -/
theorem c5_counterexample :
    specNumericRule [some (.str "5"), some (.str "")] = true
    ∧ inferType "h" [some (.str "5"), some (.str "")] = "text" := by decide

/-- C5 amended: a column is classified numeric exactly when strictly more
than 70% of all its values (empty cells included in the denominator) are
numbers or non-empty number-parsing strings; otherwise the priority order
is header containing "email" → email, then "phone"/"mobile" → phone, then
"date"/"dob" → date, else text; the inference always returns one of the
five types. -/
theorem c5_infer_type_characterization (header : String) (col : List (Option Cell)) :
    (inferType header col = "numeric" ↔
      10 * numericShareCount col > 7 * col.length)
    ∧ (inferType header col = "email" ↔
      ¬(10 * numericShareCount col > 7 * col.length)
        ∧ jsIncludes (jsToLower header) "email" = true)
    ∧ (inferType header col = "phone" ↔
      ¬(10 * numericShareCount col > 7 * col.length)
        ∧ ¬(jsIncludes (jsToLower header) "email" = true)
        ∧ (jsIncludes (jsToLower header) "phone" = true
            ∨ jsIncludes (jsToLower header) "mobile" = true))
    ∧ (inferType header col = "date" ↔
      ¬(10 * numericShareCount col > 7 * col.length)
        ∧ ¬(jsIncludes (jsToLower header) "email" = true)
        ∧ ¬(jsIncludes (jsToLower header) "phone" = true
            ∨ jsIncludes (jsToLower header) "mobile" = true)
        ∧ (jsIncludes (jsToLower header) "date" = true
            ∨ jsIncludes (jsToLower header) "dob" = true))
    ∧ (inferType header col = "text" ↔
      ¬(10 * numericShareCount col > 7 * col.length)
        ∧ ¬(jsIncludes (jsToLower header) "email" = true)
        ∧ ¬(jsIncludes (jsToLower header) "phone" = true
            ∨ jsIncludes (jsToLower header) "mobile" = true)
        ∧ ¬(jsIncludes (jsToLower header) "date" = true
            ∨ jsIncludes (jsToLower header) "dob" = true)) := by
  unfold inferType
  split_ifs with h1 h2 h3 h4 <;> simp_all [Bool.or_eq_true]

/-- C8: applying the cleaning engine with no step flagged `applied` is a
no-op on headers and rows; only the filename gains the `cleaned_` prefix. -/
theorem c8_no_applied_steps_noop (d : CSVData) (steps : List CleaningStep)
    (h : ∀ s ∈ steps, s.applied = false) :
    applyAllSelectedSteps d steps = ⟨d.headers, d.rows, "cleaned_" ++ d.filename⟩ := by
  have hf : steps.filter (fun s => s.applied) = [] := by
    rw [List.filter_eq_nil]
    intro s hs
    simp [h s hs]
  simp [applyAllSelectedSteps, hf]

/-- C8 witness: the no-op theorem at a concrete dataset and one unapplied
step. -/
theorem c8_witness :
    applyAllSelectedSteps ⟨["a"], [[.str "x"]], "data.csv"⟩
      [⟨false, .removeDuplicates⟩, ⟨false, .standardize "a"⟩]
      = ⟨["a"], [[.str "x"]], "cleaned_data.csv"⟩ :=
  c8_no_applied_steps_noop ⟨["a"], [[.str "x"]], "data.csv"⟩
    [⟨false, .removeDuplicates⟩, ⟨false, .standardize "a"⟩] (by decide)

/-- C10: the non-empty guard used by the format, range, unusual-pattern and
PII analyzers excludes only `''`, `null` and `undefined`, while the literal
tokens `"null"`, `"NULL"`, `"N/A"`, `"n/a"` count as missing; consequently,
in the concrete numeric column `dNA`, the single `"N/A"` cell produces both
a missing-value issue and an invalid-format issue. -/
theorem c10_missing_tokens_double_count :
    (∀ v : Option Cell, nonEmptyGuard v = true ↔ v ≠ none ∧ v ≠ some (.str ""))
    ∧ (isMissingMarker (some (.str "null")) = true
        ∧ isMissingMarker (some (.str "NULL")) = true
        ∧ isMissingMarker (some (.str "N/A")) = true
        ∧ isMissingMarker (some (.str "n/a")) = true)
    ∧ (⟨"missing", "c0", 8, some (.str "N/A"), "medium"⟩ : Issue) ∈ (analyzeData dNA).issues
    ∧ (⟨"invalid_format", "c0", 8, some (.str "N/A"), "high"⟩ : Issue)
        ∈ (analyzeData dNA).issues := by
  refine ⟨?_, by decide, by decide, by decide⟩
  intro v
  match v with
  | none => simp [nonEmptyGuard]
  | some (.str s) => simp [nonEmptyGuard]
  | some (.num q) => simp [nonEmptyGuard]

/-- C9 counterexample: on the malformed dataset `dShort` (two headers, a
one-cell row) the analysis does not fail: it runs to completion and absorbs
the absent cell into the quality findings as a missing-value issue — the
complete issue list of the run is exactly that one issue. -/
theorem c9_counterexample :
    (analyzeData dShort).issues = [⟨"missing", "b", 0, none, "medium"⟩]
    ∧ totalMissing dShort = 1 := by decide

/-- C9 amended: a row shorter than the header count does not halt the
analysis; each absent trailing cell (`undefined`) is counted and flagged as
a missing value, and is ignored by the format, range, unusual-pattern, PII
and text-inconsistency checks. -/
theorem c9_short_row_absorbed (d : CSVData) (r c : ℕ)
    (hr : r < d.rows.length) (hc : c < d.headers.length)
    (hnone : cellAt d r c = none) :
    (⟨"missing", headerAt d c, r, none, "medium"⟩ : Issue) ∈ missingIssues d
    ∧ formatFlagged (dataTypeOf d c) (cellAt d r c) = false
    ∧ rangeFlagged (headerAt d c) (cellAt d r c) = false
    ∧ unusualFlagged (headerAt d c) (cellAt d r c) = false
    ∧ piiMatchesOpt (cellAt d r c) = []
    ∧ textInconsFlag (cellAt d r c) = false := by
  refine ⟨?_, by rw [hnone]; rfl, by rw [hnone]; rfl, by rw [hnone]; rfl,
    by rw [hnone]; rfl, by rw [hnone]; rfl⟩
  unfold missingIssues
  rw [List.mem_bind]
  refine ⟨c, List.mem_range.mpr hc, ?_⟩
  rw [List.mem_map]
  refine ⟨r, ?_, by rw [hnone]⟩
  unfold missingRowsInCol
  rw [List.mem_filter]
  exact ⟨List.mem_range.mpr hr, by rw [hnone]; rfl⟩

/-- C9 witness: the amended theorem at the concrete malformed dataset. -/
theorem c9_witness :
    (⟨"missing", "b", 0, none, "medium"⟩ : Issue) ∈ missingIssues dShort :=
  (c9_short_row_absorbed dShort 0 1 (by decide) (by decide) (by decide)).1

theorem textInconsFlag_iff (v : Option Cell) :
    textInconsFlag v = true ↔
      ∃ s, v = some (.str s) ∧ s ≠ ""
        ∧ (mixedCase s = true ∨ extraWhitespace s = true) := by
  match v with
  | none => simp [textInconsFlag]
  | some (.num q) => simp [textInconsFlag]
  | some (.str s) => simp [textInconsFlag]

/-- C6 counterexample: `"HELLO"` changes under trimming+lowercasing, so the
claim flags it, but the code's text-inconsistency pass does not (it is all
upper case, trimmed, and has no double space): the analyzer emits no
inconsistency issue for the dataset `dHello`. -/
theorem c6_counterexample :
    specInconsistentCell "HELLO" = true
    ∧ dataTypeOf dHello 0 = "text"
    ∧ cellAt dHello 0 0 = some (.str "HELLO")
    ∧ inconsIssuesList dHello = []
    ∧ totalInconsistencies dHello = 0 := by decide

/-- C6 amended: in a text-typed column the analyzer flags exactly the
non-empty string cells that are mixed-case (differ from their lower-case,
upper-case and capitalized forms) or carry extra whitespace (differ from
their trim, or contain a double space); each such flag is emitted as an
issue of severity `low`. -/
theorem c6_text_inconsistency_characterization :
    (∀ (d : CSVData) (c r : ℕ),
      r ∈ textInconsRowsInCol d c ↔
        dataTypeOf d c = "text" ∧ r < d.rows.length ∧
          ∃ s, cellAt d r c = some (.str s) ∧ s ≠ ""
            ∧ (mixedCase s = true ∨ extraWhitespace s = true))
    ∧ (∀ (d : CSVData) (c r : ℕ), c < d.headers.length →
        r ∈ textInconsRowsInCol d c →
        (⟨"inconsistent", headerAt d c, r, cellAt d r c, "low"⟩ : Issue)
          ∈ inconsIssuesList d) := by
  constructor
  · intro d c r
    unfold textInconsRowsInCol
    split_ifs with h
    · simp [List.mem_filter, List.mem_range, h, textInconsFlag_iff, and_comm]
    · simp [h]
  · intro d c r hc hr
    unfold inconsIssuesList
    rw [List.mem_bind]
    exact ⟨c, List.mem_range.mpr hc,
      List.mem_append.mpr (Or.inl (List.mem_map.mpr ⟨r, hr, rfl⟩))⟩

/-- C6 witness: the amended characterization at a concrete mixed-case cell. -/
theorem c6_witness :
    (⟨"inconsistent", "name", 0, some (.str "Hello World"), "low"⟩ : Issue)
      ∈ inconsIssuesList dHelloWorld :=
  c6_text_inconsistency_characterization.2 dHelloWorld 0 0 (by decide) (by decide)

theorem missingCount_le_rows (d : CSVData) (c : ℕ) :
    missingCount d c ≤ d.rows.length := by
  unfold missingCount missingRowsInCol
  calc (List.filter (fun r => isMissingMarker (cellAt d r c))
          (List.range d.rows.length)).length
      ≤ (List.range d.rows.length).length := List.length_filter_le _ _
    _ = d.rows.length := List.length_range _

theorem totalMissing_le_totalCells (d : CSVData) :
    totalMissing d ≤ totalCells d := by
  unfold totalMissing totalCells
  calc ((List.range d.headers.length).map (fun c => missingCount d c)).sum
      ≤ ((List.range d.headers.length).map (fun _ => d.rows.length)).sum := by
        apply List.sum_le_sum
        intro c _
        exact missingCount_le_rows d c
    _ = d.headers.length * d.rows.length := by
        simp [List.map_const', List.sum_replicate, smul_eq_mul]
    _ = d.rows.length * d.headers.length := Nat.mul_comm _ _

set_option maxRecDepth 8000 in
/-- C3 counterexample: a 200-cell dataset with exactly one missing cell
still scores 100 (`round(199/200·100) = round(99.5) = 100`), so the
missing-values score being 100 does not imply the absence of missing
cells. -/
theorem c3_counterexample :
    totalMissing d200 = 1 ∧ totalCells d200 = 200
    ∧ missingValuesScore d200 = some 100 := by
  refine ⟨by decide, by decide, ?_⟩
  unfold missingValuesScore
  rw [if_neg (by decide), show totalMissing d200 = 1 from by decide,
    show totalCells d200 = 200 from by decide]
  congr 1
  exact jsRound_eq_of _ _ (by norm_num) (by norm_num)

/-- C3 amended: for a dataset with at least one row and one column, the
missing-values score is 100 exactly when `200·totalMissing ≤ totalCells`
(in particular it is 100 whenever no cell is missing, but also with up to
one missing cell per 200 cells), and the score is weakly decreasing in the
number of missing cells when the total cell count is held fixed. -/
theorem c3_missing_score_amended (d1 d2 : CSVData)
    (h1r : d1.rows ≠ []) (h1c : d1.headers ≠ []) :
    (missingValuesScore d1 = some 100 ↔ 200 * totalMissing d1 ≤ totalCells d1)
    ∧ (totalCells d1 = totalCells d2 → totalMissing d1 ≤ totalMissing d2 →
        ∀ s1 s2 : ℤ, missingValuesScore d1 = some s1 →
          missingValuesScore d2 = some s2 → s2 ≤ s1) := by
  have hT0 : totalCells d1 ≠ 0 := by
    unfold totalCells
    exact Nat.mul_ne_zero (fun h => h1r (List.length_eq_zero.mp h))
      (fun h => h1c (List.length_eq_zero.mp h))
  have hTpos : (0 : ℚ) < (totalCells d1 : ℚ) := by
    exact_mod_cast Nat.pos_of_ne_zero hT0
  have hm0 : (0 : ℚ) ≤ (totalMissing d1 : ℚ) := Nat.cast_nonneg _
  constructor
  · unfold missingValuesScore
    rw [if_neg hT0, Option.some_inj]
    unfold jsRound
    rw [Int.floor_eq_iff]
    constructor
    · rintro ⟨h1, -⟩
      rw [div_mul_eq_mul_div, ← sub_le_iff_le_add, le_div_iff hTpos] at h1
      have h2 : (200 : ℚ) * (totalMissing d1 : ℚ) ≤ (totalCells d1 : ℚ) := by
        push_cast at h1
        linarith
      exact_mod_cast h2
    · intro h
      have h' : (200 : ℚ) * (totalMissing d1 : ℚ) ≤ (totalCells d1 : ℚ) := by
        exact_mod_cast h
      constructor
      · rw [div_mul_eq_mul_div, ← sub_le_iff_le_add, le_div_iff hTpos]
        push_cast
        linarith
      · have hle : ((totalCells d1 : ℚ) - (totalMissing d1 : ℚ)) / (totalCells d1 : ℚ)
            ≤ 1 := by
          rw [div_le_one hTpos]
          linarith
        have h100 : ((totalCells d1 : ℚ) - (totalMissing d1 : ℚ)) / (totalCells d1 : ℚ)
            * 100 ≤ 100 := by nlinarith
        push_cast
        linarith
  · intro hTT hmm s1 s2 hs1 hs2
    have hT0' : totalCells d2 ≠ 0 := hTT ▸ hT0
    unfold missingValuesScore at hs1 hs2
    rw [if_neg hT0, Option.some_inj] at hs1
    rw [if_neg hT0', Option.some_inj] at hs2
    subst hs1
    subst hs2
    unfold jsRound
    apply Int.floor_le_floor
    have hmq : (totalMissing d1 : ℚ) ≤ (totalMissing d2 : ℚ) := by exact_mod_cast hmm
    have hTq : (totalCells d2 : ℚ) = (totalCells d1 : ℚ) := by exact_mod_cast hTT.symm
    rw [hTq]
    have key : ((totalCells d1 : ℚ) - (totalMissing d2 : ℚ)) / (totalCells d1 : ℚ)
        ≤ ((totalCells d1 : ℚ) - (totalMissing d1 : ℚ)) / (totalCells d1 : ℚ) :=
      (div_le_div_right hTpos).mpr (by linarith)
    have := mul_le_mul_of_nonneg_right key (by norm_num : (0:ℚ) ≤ 100)
    linarith

/-- C3 witness: the amended characterization applied at a concrete
all-missing two-cell dataset (whose score is therefore not 100). -/
theorem c3_witness : missingValuesScore dm2 ≠ some 100 := by
  intro h
  have h2 := (c3_missing_score_amended dm2 dm2 (by decide) (by decide)).1.mp h
  revert h2
  decide

theorem get?_enum_map {α β : Type} (l : List α) (f : ℕ × α → β) (r : ℕ) :
    (l.enum.map f).get? r = (l.get? r).map (fun a => f (r, a)) := by
  rw [List.get?_map, List.get?_enum]
  cases l.get? r <;> rfl

/-- C7: with a non-empty `selectedRows` subset, the fill-missing step
replaces exactly the cells of the target column whose row index is selected
and whose current value is the empty string (an empty-marker), with the fill
value; every other cell of the dataset — in particular every selected-column
cell that is any other empty-marker or not selected — is unchanged, and the
headers and the number of rows are unchanged. -/
theorem c7_fill_missing_frame (d : CSVData) (column : String) (value : Cell)
    (sel : List ℕ) (colIndex : ℕ)
    (hsel : sel ≠ [])
    (hcol : idxOfHeader d.headers column = some colIndex)
    (hwf : ∀ row ∈ d.rows, row.length = d.headers.length) :
    (applyFillMissing d column value sel).headers = d.headers
    ∧ (applyFillMissing d column value sel).rows.length = d.rows.length
    ∧ ∀ r c : ℕ,
        (cellAt (applyFillMissing d column value sel) r c =
          if c = colIndex ∧ sel.contains r = true ∧ cellAt d r c = some (.str "")
          then some value else cellAt d r c)
        ∧ (¬(c = colIndex ∧ sel.contains r = true
              ∧ isMissingMarker (cellAt d r c) = true) →
            cellAt (applyFillMissing d column value sel) r c = cellAt d r c) := by
  have hclt : colIndex < d.headers.length := by
    have := List.findIdx?_eq_some_iff_getElem.mp hcol
    exact this.1
  have hrows : (applyFillMissing d column value sel).rows =
      d.rows.enum.map (fun p =>
        if shouldFill sel p.1 && fillableCell (p.2.get? colIndex) then
          p.2.set colIndex value
        else p.2) := by
    unfold applyFillMissing
    rw [hcol]
  have hheaders : (applyFillMissing d column value sel).headers = d.headers := by
    unfold applyFillMissing
    rw [hcol]
  have hempty : sel.isEmpty = false := by
    cases sel with
    | nil => exact absurd rfl hsel
    | cons a t => rfl
  have hshould : ∀ r, shouldFill sel r = sel.contains r := by
    intro r
    unfold shouldFill
    rw [hempty, Bool.false_or]
  have hchar : ∀ r c : ℕ,
      cellAt (applyFillMissing d column value sel) r c =
        if c = colIndex ∧ sel.contains r = true ∧ cellAt d r c = some (.str "")
        then some value else cellAt d r c := by
    intro r c
    unfold cellAt
    rw [hrows, get?_enum_map]
    cases hrow : d.rows.get? r with
    | none =>
      simp only [Option.map_none', Option.none_bind]
      rw [if_neg (by rintro ⟨-, -, h⟩; exact Option.noConfusion h)]
    | some row =>
      have hlen : row.length = d.headers.length := hwf row (List.get?_mem hrow)
      simp only [Option.map_some', Option.some_bind, hshould]
      by_cases hcond : (sel.contains r && fillableCell (row.get? colIndex)) = true
      · rw [if_pos hcond]
        obtain ⟨hcr, hfill⟩ := Bool.and_eq_true_iff.mp hcond
        have hcell : row.get? colIndex = some (.str "") := by
          cases hcc : row.get? colIndex with
          | none =>
            exfalso
            have hlt : colIndex < row.length := hlen ▸ hclt
            rw [List.get?_eq_get hlt] at hcc
            exact Option.noConfusion hcc
          | some cell =>
            cases cell with
            | str s =>
              rw [hcc] at hfill
              have hs : s = "" := by simpa [fillableCell] using hfill
              rw [hs]
            | num q =>
              rw [hcc] at hfill
              simp [fillableCell] at hfill
        by_cases hc : c = colIndex
        · subst hc
          rw [List.get?_set_eq_of_lt _ (hlen ▸ hclt)]
          rw [if_pos ⟨rfl, hcr, hcell⟩]
        · rw [List.get?_set_ne _ _ (fun h => hc h.symm)]
          rw [if_neg (fun hcon => hc hcon.1)]
      · rw [if_neg hcond, if_neg]
        rintro ⟨hc, hcr, hcc⟩
        apply hcond
        rw [hcr, Bool.true_and]
        subst hc
        rw [hcc]
        decide
  refine ⟨hheaders, ?_, fun r c => ⟨hchar r c, ?_⟩⟩
  · rw [hrows]
    simp
  · intro hno
    rw [hchar r c, if_neg]
    rintro ⟨hc, hcr, hcc⟩
    exact hno ⟨hc, hcr, by rw [hcc]; rfl⟩

/-- C7 witness: the frame theorem at a concrete dataset with two missing
cells and only row 0 selected — row 0 is filled, row 1 keeps its missing
cell. -/
theorem c7_witness :
    cellAt (applyFillMissing dFill "a" (.str "X") [0]) 0 0 = some (.str "X")
    ∧ cellAt (applyFillMissing dFill "a" (.str "X") [0]) 1 0 = some (.str "") := by
  have h := c7_fill_missing_frame dFill "a" (.str "X") [0] 0 (by decide) (by decide)
    (by decide)
  constructor
  · rw [(h.2.2 0 0).1, if_pos ⟨rfl, by decide, by decide⟩]
  · rw [(h.2.2 1 0).1, if_neg (by decide)]
    decide

/-! ### Duplicate-scan characterization (C4) -/

/-- Models `o` is the first index at which row `r` occurs in `l`. -/
def FirstOcc (l : List (List Cell)) (r : List Cell) (o : ℕ) : Prop :=
  l.get? o = some r ∧ ∀ j < o, l.get? j ≠ some r

/-- The property characterizing an emitted duplicate pair: the row at `i`
already occurs first at `o < i`. -/
def DupSpec (full : List (List Cell)) (i o : ℕ) : Prop :=
  ∃ r, full.get? i = some r ∧ FirstOcc full r o ∧ o < i

theorem firstOcc_lt {l : List (List Cell)} {r : List Cell} {o : ℕ}
    (h : FirstOcc l r o) : o < l.length := by
  by_contra hn
  have h1 := h.1
  rw [List.get?_eq_none.mpr (Nat.le_of_not_lt hn)] at h1
  exact Option.noConfusion h1

theorem firstOcc_unique {l : List (List Cell)} {r : List Cell} {o1 o2 : ℕ}
    (h1 : FirstOcc l r o1) (h2 : FirstOcc l r o2) : o1 = o2 := by
  rcases Nat.lt_trichotomy o1 o2 with h | h | h
  · exact absurd h1.1 (h2.2 o1 h)
  · exact h
  · exact absurd h2.1 (h1.2 o2 h)

theorem exists_firstOcc {l : List (List Cell)} {r : List Cell} (h : r ∈ l) :
    ∃ o, FirstOcc l r o := by
  induction l with
  | nil => cases h
  | cons a t ih =>
    by_cases ha : a = r
    · refine ⟨0, ?_, ?_⟩
      · rw [ha]; rfl
      · intro j hj
        exact absurd hj (Nat.not_lt_zero j)
    · have ht : r ∈ t := by
        cases h with
        | head => exact absurd rfl ha
        | tail _ h' => exact h'
      obtain ⟨o, ho1, ho2⟩ := ih ht
      refine ⟨o + 1, by simpa using ho1, ?_⟩
      intro j hj
      cases j with
      | zero =>
        intro hc
        have : a = r := by simpa using hc
        exact ha this
      | succ j' =>
        have := ho2 j' (Nat.lt_of_succ_lt_succ hj)
        simpa using this

theorem firstOcc_append_of_lt {p rest : List (List Cell)} {r : List Cell}
    {o : ℕ} (ho : o < p.length) :
    FirstOcc (p ++ rest) r o ↔ FirstOcc p r o := by
  unfold FirstOcc
  constructor
  · rintro ⟨h1, h2⟩
    rw [List.get?_append ho] at h1
    refine ⟨h1, fun j hj hc => ?_⟩
    have := h2 j hj
    rw [List.get?_append (lt_trans hj ho)] at this
    exact this hc
  · rintro ⟨h1, h2⟩
    refine ⟨by rw [List.get?_append ho]; exact h1, fun j hj hc => ?_⟩
    rw [List.get?_append (lt_trans hj ho)] at hc
    exact h2 j hj hc

theorem lookupRow_append (r : List Cell) (s1 s2 : List (List Cell × ℕ)) :
    lookupRow r (s1 ++ s2) =
      match lookupRow r s1 with
      | some o => some o
      | none => lookupRow r s2 := by
  induction s1 with
  | nil => rfl
  | cons p t ih =>
    obtain ⟨r', o⟩ := p
    by_cases h : r' = r
    · simp [lookupRow, h]
    · simp [lookupRow, h, ih]

theorem findDups_spec (rs : List (List Cell)) :
    ∀ (pfx : List (List Cell)) (seen : List (List Cell × ℕ)),
      (∀ r o, lookupRow r seen = some o ↔ FirstOcc pfx r o) →
      ∀ i o, ((i, o) ∈ findDups rs pfx.length seen ↔
        pfx.length ≤ i ∧ DupSpec (pfx ++ rs) i o) := by
  induction rs with
  | nil =>
    intro pfx seen hseen i o
    constructor
    · intro h
      exact absurd h (List.not_mem_nil _)
    · rintro ⟨hle, r, hr, -, -⟩
      rw [List.append_nil] at hr
      rw [List.get?_eq_none.mpr hle] at hr
      exact Option.noConfusion hr
  | cons r0 rs ih =>
    intro pfx seen hseen i o
    have hlen1 : (pfx ++ [r0]).length = pfx.length + 1 := by simp
    have hfull : (pfx ++ [r0]) ++ rs = pfx ++ r0 :: rs := by simp
    have hgetlen : (pfx ++ r0 :: rs).get? pfx.length = some r0 := by
      rw [List.get?_append_right (le_refl _)]
      simp
    cases hlook : lookupRow r0 seen with
    | some o0 =>
      have hstep : findDups (r0 :: rs) pfx.length seen
          = (pfx.length, o0) :: findDups rs (pfx.length + 1) seen := by
        simp only [findDups, hlook]
      rw [hstep]
      have hr0first : FirstOcc pfx r0 o0 := (hseen r0 o0).mp hlook
      have ho0lt : o0 < pfx.length := firstOcc_lt hr0first
      have hseen' : ∀ r o', lookupRow r seen = some o' ↔ FirstOcc (pfx ++ [r0]) r o' := by
        intro r o'
        rw [hseen r o']
        constructor
        · intro hf
          exact (firstOcc_append_of_lt (firstOcc_lt hf)).mpr hf
        · intro hf
          have ho' : o' < pfx.length + 1 := by
            have := firstOcc_lt hf
            simpa using this
          rcases Nat.lt_or_ge o' pfx.length with h | h
          · exact (firstOcc_append_of_lt h).mp hf
          · exfalso
            have ho'' : o' = pfx.length := Nat.le_antisymm (Nat.lt_succ_iff.mp ho') h
            have hget : (pfx ++ [r0]).get? o' = some r0 := by
              rw [ho'', List.get?_append_right (le_refl _)]
              simp
            have hrr : r = r0 := by
              have h1 := hf.1
              rw [hget] at h1
              exact (Option.some_inj.mp h1).symm
            have hg : (pfx ++ [r0]).get? o0 = some r0 := by
              rw [List.get?_append ho0lt]
              exact hr0first.1
            exact hf.2 o0 (ho'' ▸ ho0lt) (hrr ▸ hg)
      have hih := ih (pfx ++ [r0]) seen hseen' i o
      rw [hlen1, hfull] at hih
      constructor
      · intro hmem
        rcases List.mem_cons.mp hmem with heq | hmem'
        · injection heq with hi ho
          subst hi
          subst ho
          refine ⟨le_refl _, r0, hgetlen, ?_, ho0lt⟩
          have ha : FirstOcc (pfx ++ [r0]) r0 o :=
            (firstOcc_append_of_lt ho0lt).mpr hr0first
          have hb : FirstOcc ((pfx ++ [r0]) ++ rs) r0 o :=
            (firstOcc_append_of_lt (p := pfx ++ [r0])
              (by rw [hlen1]; exact Nat.lt_succ_of_lt ho0lt)).mpr ha
          rw [← hfull]
          exact hb
        · have h := hih.mp hmem'
          exact ⟨le_trans (Nat.le_succ _) h.1, h.2⟩
      · rintro ⟨hle, r, hget, hfo, holt⟩
        rcases Nat.lt_or_ge pfx.length i with hlt | hge
        · exact List.mem_cons.mpr (Or.inr (hih.mpr ⟨hlt, r, hget, hfo, holt⟩))
        · have hi : i = pfx.length := Nat.le_antisymm hge hle
          subst hi
          have hrr : r = r0 := by
            rw [hgetlen] at hget
            exact (Option.some_inj.mp hget).symm
          rw [hrr] at hfo
          have h1 : FirstOcc ((pfx ++ [r0]) ++ rs) r0 o := by
            rw [hfull]
            exact hfo
          have h2 := (firstOcc_append_of_lt (p := pfx ++ [r0])
            (by rw [hlen1]; exact Nat.lt_succ_of_lt holt)).mp h1
          have hfo' : FirstOcc pfx r0 o := (firstOcc_append_of_lt holt).mp h2
          have hsome := (hseen r0 o).mpr hfo'
          rw [hlook] at hsome
          have ho : o = o0 := Option.some_inj.mp hsome.symm
          subst ho
          exact List.mem_cons.mpr (Or.inl rfl)
    | none =>
      have hstep : findDups (r0 :: rs) pfx.length seen
          = findDups rs (pfx.length + 1) (seen ++ [(r0, pfx.length)]) := by
        simp only [findDups, hlook]
      rw [hstep]
      have hr0notmem : r0 ∉ pfx := by
        intro hmem
        obtain ⟨o0, ho0⟩ := exists_firstOcc hmem
        have := (hseen r0 o0).mpr ho0
        rw [hlook] at this
        exact Option.noConfusion this
      have hseen' : ∀ r o', lookupRow r (seen ++ [(r0, pfx.length)]) = some o'
          ↔ FirstOcc (pfx ++ [r0]) r o' := by
        intro r o'
        rw [lookupRow_append]
        cases hl : lookupRow r seen with
        | some ov =>
          have hf := (hseen r ov).mp hl
          have hrmem : r ∈ pfx := List.get?_mem hf.1
          constructor
          · intro h
            have hoo : ov = o' := Option.some_inj.mp h
            subst hoo
            exact (firstOcc_append_of_lt (firstOcc_lt hf)).mpr hf
          · intro hfo
            rcases Nat.lt_or_ge o' pfx.length with hlt | hge
            · have := (firstOcc_append_of_lt hlt).mp hfo
              rw [firstOcc_unique hf this]
            · exfalso
              have ho' : o' < pfx.length + 1 := by
                have := firstOcc_lt hfo
                simpa using this
              have ho'' : o' = pfx.length := Nat.le_antisymm (Nat.lt_succ_iff.mp ho') hge
              have hget : (pfx ++ [r0]).get? o' = some r0 := by
                rw [ho'', List.get?_append_right (le_refl _)]
                simp
              have hrr : r = r0 := by
                have h1 := hfo.1
                rw [hget] at h1
                exact (Option.some_inj.mp h1).symm
              exact hr0notmem (hrr ▸ hrmem)
        | none =>
          have hrnot : r ∉ pfx := by
            intro hmem
            obtain ⟨ov, hov⟩ := exists_firstOcc hmem
            have := (hseen r ov).mpr hov
            rw [hl] at this
            exact Option.noConfusion this
          by_cases hr : r0 = r
          · subst hr
            constructor
            · intro h
              have ho' : pfx.length = o' := by simpa [lookupRow] using h
              subst ho'
              constructor
              · rw [List.get?_append_right (le_refl _)]
                simp
              · intro j hj hjg
                rw [List.get?_append hj] at hjg
                exact hr0notmem (List.get?_mem hjg)
            · rintro ⟨h1, h2⟩
              rcases Nat.lt_or_ge o' pfx.length with hlt | hge
              · exfalso
                rw [List.get?_append hlt] at h1
                exact hr0notmem (List.get?_mem h1)
              · have ho' : o' < pfx.length + 1 := by
                  have := firstOcc_lt (l := pfx ++ [r0]) ⟨h1, h2⟩
                  simpa using this
                have ho'' : o' = pfx.length := Nat.le_antisymm (Nat.lt_succ_iff.mp ho') hge
                simp [lookupRow, ho'']
          · constructor
            · intro h
              exfalso
              simp [lookupRow, hr] at h
            · rintro ⟨h1, h2⟩
              exfalso
              rcases Nat.lt_or_ge o' pfx.length with hlt | hge
              · rw [List.get?_append hlt] at h1
                exact hrnot (List.get?_mem h1)
              · have ho' : o' < pfx.length + 1 := by
                  have := firstOcc_lt (l := pfx ++ [r0]) ⟨h1, h2⟩
                  simpa using this
                have ho'' : o' = pfx.length := Nat.le_antisymm (Nat.lt_succ_iff.mp ho') hge
                rw [ho'', List.get?_append_right (le_refl _)] at h1
                simp at h1
                exact hr h1
      have hih := ih (pfx ++ [r0]) (seen ++ [(r0, pfx.length)]) hseen' i o
      rw [hlen1, hfull] at hih
      rw [hih]
      constructor
      · rintro ⟨h1, h2⟩
        exact ⟨le_trans (Nat.le_succ _) h1, h2⟩
      · rintro ⟨h1, h2⟩
        refine ⟨?_, h2⟩
        rcases Nat.lt_or_ge pfx.length i with hlt | hge
        · exact hlt
        · exfalso
          have hi : i = pfx.length := Nat.le_antisymm hge h1
          obtain ⟨r, hget, hfo, holt⟩ := h2
          rw [hi] at hget holt
          have hrr : r = r0 := by
            rw [hgetlen] at hget
            exact (Option.some_inj.mp hget).symm
          rw [hrr] at hfo
          have h1 : FirstOcc ((pfx ++ [r0]) ++ rs) r0 o := by
            rw [hfull]
            exact hfo
          have h2 := (firstOcc_append_of_lt (p := pfx ++ [r0])
            (by rw [hlen1]; exact Nat.lt_succ_of_lt holt)).mp h1
          have hfo' : FirstOcc pfx r0 o := (firstOcc_append_of_lt holt).mp h2
          exact hr0notmem (List.get?_mem hfo'.1)

theorem dupPairs_iff (d : CSVData) (i o : ℕ) :
    (i, o) ∈ dupPairs d ↔
      ∃ r, d.rows.get? i = some r ∧ FirstOcc d.rows r o ∧ o < i := by
  have base : ∀ (r : List Cell) (o' : ℕ),
      lookupRow r ([] : List (List Cell × ℕ)) = some o'
        ↔ FirstOcc ([] : List (List Cell)) r o' := by
    intro r o'
    constructor
    · intro h
      exact Option.noConfusion h
    · rintro ⟨h1, -⟩
      exact Option.noConfusion h1
  have h := findDups_spec d.rows [] [] base i o
  simp only [List.length_nil, List.nil_append] at h
  rw [show dupPairs d = findDups d.rows 0 [] from rfl, h]
  simp [DupSpec]

/-- C4: the duplicate scan flags exactly the pairs `(i, o)` where the row at
index `i` equals an earlier row whose first occurrence is at index `o < i`
(so a first occurrence is never flagged, each later identical row is flagged
once, and the recorded original is the first occurrence); equivalently, a
row index is flagged iff some smaller index holds an identical row.  On the
dataset with rows `[A, B, A, C, A]` exactly the 2nd and 3rd occurrences of
`A` (indices 2 and 4) are flagged, both referencing original index 0, and
the duplicates score is `round(((5 − 2)/5)·100) = 60`. -/
theorem c4_duplicate_detection :
    (∀ (d : CSVData) (i o : ℕ),
      (i, o) ∈ dupPairs d ↔
        ∃ r, d.rows.get? i = some r ∧ FirstOcc d.rows r o ∧ o < i)
    ∧ (∀ (d : CSVData) (i : ℕ),
      i ∈ duplicateRowIndices d ↔
        i < d.rows.length ∧ ∃ j < i, d.rows.get? j = d.rows.get? i)
    ∧ dupPairs dABACA = [(2, 0), (4, 0)]
    ∧ duplicatesScore dABACA = some 60 := by
  refine ⟨dupPairs_iff, ?_, by decide, ?_⟩
  · intro d i
    unfold duplicateRowIndices
    rw [List.mem_map]
    constructor
    · rintro ⟨⟨i', o⟩, hmem, heq⟩
      have hio : i' = i := heq
      subst hio
      obtain ⟨r, hget, hfo, holt⟩ := (dupPairs_iff d i' o).mp hmem
      refine ⟨?_, o, holt, ?_⟩
      · by_contra hn
        rw [List.get?_eq_none.mpr (Nat.le_of_not_lt hn)] at hget
        exact Option.noConfusion hget
      · rw [hget, hfo.1]
    · rintro ⟨hi, j, hj, hjeq⟩
      have hget : d.rows.get? i = some (d.rows.get ⟨i, hi⟩) := List.get?_eq_get hi
      set r := d.rows.get ⟨i, hi⟩ with hr
      have hjr : d.rows.get? j = some r := by rw [hjeq, hget]
      obtain ⟨o, hfo⟩ := exists_firstOcc (List.get?_mem hjr)
      have hoj : o ≤ j := by
        by_contra hn
        exact hfo.2 j (Nat.lt_of_not_le hn) hjr
      refine ⟨(i, o), (dupPairs_iff d i o).mpr
        ⟨r, hget, hfo, Nat.lt_of_le_of_lt hoj hj⟩, rfl⟩
  · unfold duplicatesScore
    rw [if_neg (by decide),
      show (duplicateRowIndices dABACA).length = 2 from by decide,
      show dABACA.rows.length = 5 from by decide]
    congr 1
    exact jsRound_eq_of _ _ (by norm_num) (by norm_num)
